import Mathlib

/-!
Shallow embedding of the apartment-finder core pipeline
(models/apartment.py, services/scoring.py, services/deduplication.py,
services/currency.py) and proofs about it.

Python floats are modelled as rationals, Python ints as integers,
timestamps as rationals measured in days.  A Python function that can
raise an exception is modelled as returning an Except value carrying the
exception class name and message.
-/

namespace ApartmentFinder

/-- Python exception value: the class name (such as ValueError) and message. -/
structure PyError where
  cls : String
  msg : String
deriving DecidableEq

deriving instance DecidableEq for Except

/-- Python str.lower, mapping each character to lower case. -/
def pyLower (s : String) : String := ⟨s.data.map Char.toLower⟩

/-- Contiguous occurrence of one character list inside another. -/
def charsContain (pat : List Char) : List Char → Bool
  | [] => pat.isEmpty
  | c :: t => pat.isPrefixOf (c :: t) || charsContain pat t

/-- Python substring test: the pattern occurs contiguously inside the text. -/
def strContains (text pat : String) : Bool := charsContain pat.data text.data

/-- Banker rounding of a rational to the nearest integer, as Python round does. -/
def roundHalfEven (x : ℚ) : ℤ :=
  if x - x.floor < 1/2 then x.floor
  else if 1/2 < x - x.floor then x.floor + 1
  else if 2 ∣ x.floor then x.floor else x.floor + 1

/-- Python round(x, 1): round to one decimal place. -/
def round1 (x : ℚ) : ℚ := (roundHalfEven (x * 10) : ℚ) / 10

/-- Python round(x, 2): round to two decimal places. -/
def round2 (x : ℚ) : ℚ := (roundHalfEven (x * 100) : ℚ) / 100

/-- Amenities from models/apartment.py: ten boolean flags, all default false. -/
structure Amenities where
  laundry_in_unit : Bool := false
  laundry_in_building : Bool := false
  dishwasher : Bool := false
  parking : Bool := false
  gym : Bool := false
  pool : Bool := false
  doorman : Bool := false
  elevator : Bool := false
  pets_allowed : Bool := false
  air_conditioning : Bool := false
deriving DecidableEq

/-- Amenities.has_laundry: either laundry option is available. -/
def Amenities.has_laundry (a : Amenities) : Bool :=
  a.laundry_in_unit || a.laundry_in_building

/-- Entries of the score_breakdown dict built by ScoringService, which always
has exactly the five dimension keys. -/
structure ScoreBreakdown where
  price : ℚ
  size : ℚ
  amenities : ℚ
  location : ℚ
  freshness : ℚ
deriving DecidableEq

/-- Apartment from models/apartment.py (fields the core pipeline reads). -/
structure Apartment where
  source_id : String
  source_name : String
  title : String
  url : String
  price_local : ℚ
  currency : String
  price_usd : Option ℚ
  bedrooms : Option ℤ := none
  bathrooms : Option ℚ := none
  sqft : Option ℤ := none
  city : String
  country : String
  neighborhood : Option String := none
  description : Option String := none
  amenities : Amenities := {}
  posted_date : Option ℚ := none
  score : Option ℚ := none
  score_breakdown : Option ScoreBreakdown := none
deriving DecidableEq

/-- One requirement token check inside Apartment.meets_must_haves: recognized
tokens test the corresponding flag, unrecognized tokens pass. -/
def requirementMet (a : Amenities) (req : String) : Bool :=
  if req = "laundry" then a.has_laundry
  else if req = "dishwasher" then a.dishwasher
  else if req = "parking" then a.parking
  else if req = "gym" then a.gym
  else if req = "doorman" then a.doorman
  else if req = "elevator" then a.elevator
  else if req = "pets" then a.pets_allowed
  else if req = "a/c" then a.air_conditioning
  else true

/-- Apartment.meets_must_haves: every requirement token (lowercased) is met. -/
def Apartment.meets_must_haves (apt : Apartment) (must_haves : List String) : Bool :=
  must_haves.all fun r => requirementMet apt.amenities (pyLower r)

/-- ScoringWeights dataclass with its default weight values. -/
structure ScoringWeights where
  price : ℚ := 30/100
  size : ℚ := 20/100
  amenities : ℚ := 25/100
  location : ℚ := 15/100
  freshness : ℚ := 10/100
deriving DecidableEq

/-- Sum of the five weights, as computed inside ScoringWeights.validate. -/
def ScoringWeights.total (w : ScoringWeights) : ℚ :=
  w.price + w.size + w.amenities + w.location + w.freshness

/-- ScoringWeights.validate: raises ValueError unless the weights sum to 1.0
within a 0.01 tolerance. -/
def ScoringWeights.validate (w : ScoringWeights) : Except PyError Unit :=
  if |w.total - 1| > 1/100 then
    .error ⟨"ValueError", "Scoring weights must sum to 1.0, got " ++ toString w.total⟩
  else .ok ()

/-- ScoringService state after a successful construction. -/
structure ScoringService where
  min_price : ℚ
  max_price : ℚ
  min_sqft : ℤ
  must_haves : List String
  preferences : List String
  weights : ScoringWeights
deriving DecidableEq

/-- ScoringService.QUIET_SIGNALS keyword list. -/
def QUIET_SIGNALS : List String :=
  ["quiet", "peaceful", "residential", "tree-lined", "family", "safe",
   "low traffic", "serene", "tranquil"]

/-- ScoringService.NOISY_SIGNALS keyword list. -/
def NOISY_SIGNALS : List String :=
  ["nightlife", "busy", "downtown", "times square", "club", "bar district",
   "highway", "train", "subway", "vibrant"]

/-- ScoringService constructor: lowercases the token lists, defaults the
weights when none are given, and validates the weights. -/
def ScoringService.init (min_price max_price : ℚ) (min_sqft : ℤ)
    (must_haves preferences : List String) (weights : Option ScoringWeights) :
    Except PyError ScoringService :=
  let w := weights.getD {}
  match w.validate with
  | .error e => .error e
  | .ok _ => .ok ⟨min_price, max_price, min_sqft,
      must_haves.map pyLower, preferences.map pyLower, w⟩

/-- ScoringService price sub-score: 100 at or below min_price, 0 at or above
max_price, linear decrease in between. -/
def ScoringService.score_price (s : ScoringService) (price_usd : ℚ) : ℚ :=
  if price_usd ≤ s.min_price then 100
  else if price_usd ≥ s.max_price then 0
  else
    let range_size := s.max_price - s.min_price
    let position := price_usd - s.min_price
    100 * (1 - position / range_size)

/-- ScoringService size sub-score.  The Python code divides sqft by min_sqft,
which raises ZeroDivisionError when min_sqft is zero and sqft is known. -/
def ScoringService.score_size (s : ScoringService) (sqft : Option ℤ) :
    Except PyError ℚ :=
  match sqft with
  | none => .ok 50
  | some v =>
    if s.min_sqft = 0 then .error ⟨"ZeroDivisionError", "division by zero"⟩
    else if v < s.min_sqft then
      .ok (max 0 (50 * ((v : ℚ) / (s.min_sqft : ℚ))))
    else
      let r := min ((v : ℚ) / (s.min_sqft : ℚ)) (3/2)
      .ok (50 + 50 * (r - 1) / (1/2))

/-- ScoringService amenities sub-score: base 60 plus fixed bonuses, capped at 100. -/
def ScoringService.score_amenities (s : ScoringService) (apt : Apartment) : ℚ :=
  let sc : ℚ := 60
    + (if apt.amenities.gym then 10 else 0)
    + (if apt.amenities.doorman then 10 else 0)
    + (if apt.amenities.pool then 5 else 0)
    + (if apt.amenities.elevator then 5 else 0)
    + (if apt.amenities.pets_allowed then 5 else 0)
    + (if apt.amenities.air_conditioning then 5 else 0)
    + (if apt.amenities.laundry_in_unit && s.must_haves.contains "laundry"
       then 10 else 0)
  min sc 100

/-- ScoringService location sub-score: neutral 70 without the quiet preference,
otherwise keyword matching clamped to the range 0 to 100. -/
def ScoringService.score_location (s : ScoringService) (apt : Apartment) : ℚ :=
  if ¬ s.preferences.contains "quiet_neighborhood" then 70
  else
    let text := pyLower ((apt.neighborhood.getD "") ++ " " ++ (apt.description.getD ""))
    let sc : ℚ := 50
    let sc := QUIET_SIGNALS.foldl
      (fun acc sig => if strContains text sig then acc + 10 else acc) sc
    let sc := NOISY_SIGNALS.foldl
      (fun acc sig => if strContains text sig then acc - 15 else acc) sc
    max 0 (min 100 sc)

/-- ScoringService freshness sub-score, from the listing age now - posted in days. -/
def ScoringService.score_freshness (now : ℚ) (posted_date : Option ℚ) : ℚ :=
  match posted_date with
  | none => 50
  | some p =>
    let age := now - p
    if age < 1 then 100
    else if age < 3 then 90
    else if age < 7 then 70
    else if age < 14 then 50
    else 30

/-- ScoringService private calculate-score step: the five sub-scores and the
weighted total rounded to one decimal.  Propagates the ZeroDivisionError of the
size sub-score; a missing USD price would raise a TypeError in Python. -/
def ScoringService.calculate_score (s : ScoringService) (now : ℚ)
    (apt : Apartment) : Except PyError (ℚ × ScoreBreakdown) :=
  match apt.price_usd with
  | none => .error ⟨"TypeError", "comparison of NoneType and float"⟩
  | some p =>
    match s.score_size apt.sqft with
    | .error e => .error e
    | .ok sizeScore =>
      let b : ScoreBreakdown :=
        ⟨s.score_price p, sizeScore, s.score_amenities apt,
         s.score_location apt, ScoringService.score_freshness now apt.posted_date⟩
      let total := b.price * s.weights.price + b.size * s.weights.size
        + b.amenities * s.weights.amenities + b.location * s.weights.location
        + b.freshness * s.weights.freshness
      .ok (round1 total, b)

/-- Filter-and-score loop body of score_apartments, in input order: skip an
apartment missing a must-have, missing its USD price, or priced outside the
budget; score every other apartment. -/
def ScoringService.scoreLoop (s : ScoringService) (now : ℚ) :
    List Apartment → Except PyError (List Apartment)
  | [] => .ok []
  | apt :: rest =>
    if ¬ apt.meets_must_haves s.must_haves then s.scoreLoop now rest
    else match apt.price_usd with
      | none => s.scoreLoop now rest
      | some p =>
        if p < s.min_price ∨ p > s.max_price then s.scoreLoop now rest
        else match s.calculate_score now apt with
          | .error e => .error e
          | .ok (sc, b) =>
            match s.scoreLoop now rest with
            | .error e => .error e
            | .ok out => .ok ({ apt with score := some sc, score_breakdown := some b } :: out)

/-- ScoringService.score_apartments: filter and score, then sort by score
descending (a missing score counts as 0, as in the Python key function). -/
def ScoringService.score_apartments (s : ScoringService) (now : ℚ)
    (apartments : List Apartment) : Except PyError (List Apartment) :=
  match s.scoreLoop now apartments with
  | .error e => .error e
  | .ok scored =>
    .ok (List.insertionSort (fun a b => (b.score.getD 0) ≤ (a.score.getD 0)) scored)

/-- Row of the seen_listings table from services/deduplication.py. -/
structure SeenRow where
  source_name : String
  city : String
  title : String
  price_usd : Option ℚ
  url : String
  first_seen_at : ℚ
  last_seen_at : ℚ
  sent_in_email : Bool
  sent_at : Option ℚ
deriving DecidableEq

/-- State of the seen_listings table: rows keyed by source_id (primary key). -/
abbrev DedupDB := List (String × SeenRow)

/-- SELECT by source_id on the primary key. -/
def lookupRow : DedupDB → String → Option SeenRow
  | [], _ => none
  | (k, r) :: rest, id => if k = id then some r else lookupRow rest id

/-- UPDATE seen_listings SET last_seen_at = now WHERE source_id = id. -/
def updateLastSeen (db : DedupDB) (id : String) (now : ℚ) : DedupDB :=
  db.map fun p => if p.1 = id then (p.1, { p.2 with last_seen_at := now }) else p

/-- INSERT of a newly observed listing, with the column defaults of the schema:
first_seen_at and last_seen_at default to the current timestamp, sent_in_email
defaults to false, sent_at to null. -/
def insertRow (db : DedupDB) (apt : Apartment) (now : ℚ) : DedupDB :=
  db ++ [(apt.source_id,
    { source_name := apt.source_name, city := apt.city, title := apt.title,
      price_usd := apt.price_usd, url := apt.url,
      first_seen_at := now, last_seen_at := now,
      sent_in_email := false, sent_at := none })]

/-- One iteration of the DeduplicationService.filter_new_listings loop:
the updated table and whether the apartment is included in the output. -/
def filterStep (db : DedupDB) (apt : Apartment) (now : ℚ) : DedupDB × Bool :=
  match lookupRow db apt.source_id with
  | none => (insertRow db apt now, true)
  | some row =>
    if ¬ row.sent_in_email then (updateLastSeen db apt.source_id now, true)
    else (updateLastSeen db apt.source_id now, false)

/-- DeduplicationService.filter_new_listings: thread the table through the
batch, returning the new table and the not-yet-emailed apartments in order. -/
def filter_new_listings (now : ℚ) : DedupDB → List Apartment → DedupDB × List Apartment
  | db, [] => (db, [])
  | db, apt :: rest =>
    let step := filterStep db apt now
    let next := filter_new_listings now step.1 rest
    (next.1, if step.2 then apt :: next.2 else next.2)

/-- DeduplicationService.mark_as_sent: UPDATE seen_listings SET
sent_in_email = TRUE, sent_at = now WHERE source_id = ? for each apartment. -/
def mark_as_sent (now : ℚ) (db : DedupDB) (apartments : List Apartment) : DedupDB :=
  apartments.foldl
    (fun d apt => d.map fun p =>
      if p.1 = apt.source_id then
        (p.1, { p.2 with sent_in_email := true, sent_at := some now })
      else p)
    db

/-- Effective expiry in days inside cleanup_old_listings: Python
days or EXPIRY_DAYS, so both None and 0 fall back to the default 30. -/
def effectiveDays (days : Option ℤ) : ℤ :=
  match days with
  | none => 30
  | some d => if d = 0 then 30 else d

/-- DeduplicationService.cleanup_old_listings: DELETE rows whose last_seen_at
is before now minus the effective number of days; return the remaining table
and the number of rows deleted. -/
def cleanup_old_listings (now : ℚ) (db : DedupDB) (days : Option ℤ) : DedupDB × ℕ :=
  let cutoff := now - (effectiveDays days : ℚ)
  (db.filter (fun p => ¬ p.2.last_seen_at < cutoff),
   (db.filter (fun p => p.2.last_seen_at < cutoff)).length)

/-- CurrencyService.FALLBACK_RATES table of approximate X to USD rates. -/
def FALLBACK_RATES : List (String × ℚ) :=
  [("AED_USD", 27/100), ("EUR_USD", 108/100), ("GBP_USD", 126/100),
   ("DKK_USD", 14/100), ("IDR_USD", 63/1000000)]

/-- Association-list lookup for rate tables. -/
def lookupRate : List (String × ℚ) → String → Option ℚ
  | [], _ => none
  | (k, r) :: rest, key => if k = key then some r else lookupRate rest key

/-- Observable state of CurrencyService around one rate request: the current
in-memory cache with its validity, and the outcome of a refresh attempt
(some new cache on success, none when the live rate source fails). -/
structure CurrencyState where
  cache : List (String × ℚ)
  cacheValid : Bool
  refreshOutcome : Option (List (String × ℚ))

/-- Fallback tail of CurrencyService get_rate: the direct fallback entry if
present, else the inverse of the reverse fallback entry, else None. -/
def fallbackRate (key inverseKey : String) : Option ℚ :=
  match lookupRate FALLBACK_RATES key with
  | some f => some f
  | none =>
    match lookupRate FALLBACK_RATES inverseKey with
    | some f => some (1 / f)
    | none => none

/-- CurrencyService get_rate: serve a valid cached rate; otherwise refresh.
The post-refresh cache read and its truthiness test (Python if rate, so a zero
rate is skipped) sit inside the try block, so when the refresh raises they are
skipped entirely and control falls through to the hardcoded fallback table
without ever consulting the stale cache. -/
def getRate (st : CurrencyState) (fromCur toCur : String) : Option ℚ :=
  let cache_key := fromCur ++ "_" ++ toCur
  if st.cacheValid ∧ (lookupRate st.cache cache_key).isSome then
    lookupRate st.cache cache_key
  else
    match st.refreshOutcome with
    | some newCache =>
      match lookupRate newCache cache_key with
      | some r =>
        if r ≠ 0 then some r
        else fallbackRate cache_key (toCur ++ "_" ++ fromCur)
      | none => fallbackRate cache_key (toCur ++ "_" ++ fromCur)
    | none => fallbackRate cache_key (toCur ++ "_" ++ fromCur)

/-- CurrencyService.convert_from_usd: identity for USD; otherwise use the rate
from get_rate; when no rate is obtainable divide by the direct fallback entry,
and as a last resort return the USD amount unchanged. -/
def convert_from_usd (st : CurrencyState) (amount : ℚ) (to_currency : String) : ℚ :=
  if to_currency = "USD" then amount
  else
    match getRate st "USD" to_currency with
    | none =>
      match lookupRate FALLBACK_RATES (to_currency ++ "_USD") with
      | some f => amount / f
      | none => amount
    | some rate => round2 (amount * rate)

/-- The three-check filter of score_apartments in positive form: must-haves
met, USD price present, and price within the inclusive budget bounds. -/
def ScoringService.passes_filter (s : ScoringService) (apt : Apartment) : Bool :=
  apt.meets_must_haves s.must_haves &&
    match apt.price_usd with
    | none => false
    | some p => decide (s.min_price ≤ p) && decide (p ≤ s.max_price)

/-- The apartment as score_apartments emits it: scoring fields filled in from
calculate_score (identity on the error path, which the theorems rule out). -/
def ScoringService.withScore (s : ScoringService) (now : ℚ) (apt : Apartment) : Apartment :=
  match s.calculate_score now apt with
  | .ok (sc, b) => { apt with score := some sc, score_breakdown := some b }
  | .error _ => apt

/-- A listing id is still eligible for delivery: no row yet, or not yet sent. -/
def eligible (db : DedupDB) (id : String) : Bool :=
  match lookupRow db id with
  | none => true
  | some r => ¬ r.sent_in_email

/-- Effect of mark_as_sent on a single row, keyed on membership of its id. -/
def markKey (now : ℚ) (ids : List String) (p : String × SeenRow) : String × SeenRow :=
  if p.1 ∈ ids then (p.1, { p.2 with sent_in_email := true, sent_at := some now }) else p

/-- Class name of the exception of a failed computation, if any. -/
def errClass {α : Type} : Except PyError α → Option String
  | .error e => some e.cls
  | .ok _ => none

/-- Rate visible after the refresh attempt inside get_rate: none when the
refresh raised, since the cache read inside the try block is then skipped, or
when the freshly installed cache has no entry for the key. -/
def refreshedRate (st : CurrencyState) (key : String) : Option ℚ :=
  match st.refreshOutcome with
  | none => none
  | some newCache => lookupRate newCache key

/-- Observable situation in which no live or cached rate is served for a key:
the valid-cache fast path misses, and the refresh attempt yields no entry for
the key (or only a zero entry, which Python truthiness skips). -/
abbrev noLiveRate (st : CurrencyState) (key : String) : Prop :=
  (st.cacheValid = false ∨ lookupRate st.cache key = none) ∧
  (refreshedRate st key = none ∨ refreshedRate st key = some 0)

/-! Concrete sample data used by witnesses and counterexamples. -/

/-- Weight vector summing to 1.0 but with a negative component. -/
def wBad : ScoringWeights := ⟨2, -1, 0, 0, 0⟩

/-- Weight vector of five zeros, rejected by validate. -/
def wZero : ScoringWeights := ⟨0, 0, 0, 0, 0⟩

/-- Sample service: budget 1000 to 2000 USD, 100 sqft minimum, default weights. -/
def sSample : ScoringService := ⟨1000, 2000, 100, [], [], {}⟩

/-- Sample service carrying the validated but negative weight vector. -/
def sBad : ScoringService := ⟨1000, 2000, 100, [], [], wBad⟩

/-- Sample service with min_sqft zero. -/
def sZeroSqft : ScoringService := ⟨1000, 2000, 0, [], [], {}⟩

/-- Sample in-budget apartment. -/
def aptSample : Apartment :=
  { source_id := "apt1", source_name := "test", title := "t", url := "u",
    price_local := 1500, currency := "USD", price_usd := some 1500,
    city := "NYC", country := "US" }

/-- Sample apartment priced exactly at the budget minimum. -/
def aptCheap : Apartment := { aptSample with price_usd := some 1000 }

/-- Sample apartment with a known square footage. -/
def aptSized : Apartment := { aptSample with sqft := some 120 }

/-- The apartment aptCheap as scored by sBad: total 150, out of range. -/
def aptCheapScored : Apartment :=
  { aptCheap with score := some 150, score_breakdown := some ⟨100, 50, 60, 70, 50⟩ }

/-- The apartment aptSample as scored by the default service sSample. -/
def aptSampleScored : Apartment :=
  { aptSample with score := some (111/2), score_breakdown := some ⟨50, 50, 60, 70, 50⟩ }

/-- A row already marked sent at time 1. -/
def rowSent : SeenRow :=
  ⟨"test", "NYC", "t", some 1500, "u", 0, 0, true, some 1⟩

/-- Sample apartment whose source id matches the rows above. -/
def aptA : Apartment := { aptSample with source_id := "a" }

/-- A row last seen at time 99, never sent. -/
def rowOld : SeenRow := ⟨"test", "NYC", "t", none, "u", 99, 99, false, none⟩

/-- Currency service state with an empty invalid cache and a failing rate source. -/
def stOffline : CurrencyState := ⟨[], false, none⟩

/-- Currency service state holding a stale expired USD to AED rate while the
rate source is down: the code never reads this stale entry. -/
def stStale : CurrencyState := ⟨[("USD_AED", 367/100)], false, none⟩

/-! Theorems. -/

/-- C2: with min_price < max_price the price sub-score is 100 at or below
min_price, 0 at or above max_price, the stated linear interpolation strictly
between the bounds, and exactly 50 at the midpoint. -/
theorem score_price_spec (s : ScoringService) (p : ℚ)
    (h : s.min_price < s.max_price) :
    (p ≤ s.min_price → s.score_price p = 100) ∧
    (s.max_price ≤ p → s.score_price p = 0) ∧
    (s.min_price < p → p < s.max_price →
      s.score_price p = 100 * (1 - (p - s.min_price) / (s.max_price - s.min_price))) ∧
    s.score_price ((s.min_price + s.max_price) / 2) = 50 := by
  refine ⟨fun hp => ?_, fun hp => ?_, fun h1 h2 => ?_, ?_⟩
  · simp only [ScoringService.score_price, if_pos hp]
  · have hn : ¬ p ≤ s.min_price := by linarith
    simp only [ScoringService.score_price, if_neg hn, ge_iff_le, if_pos hp]
  · have hn1 : ¬ p ≤ s.min_price := by linarith
    have hn2 : ¬ p ≥ s.max_price := by linarith
    simp only [ScoringService.score_price, if_neg hn1, if_neg hn2]
  · have hn1 : ¬ (s.min_price + s.max_price) / 2 ≤ s.min_price := by
      intro hc; nlinarith
    have hn2 : ¬ (s.min_price + s.max_price) / 2 ≥ s.max_price := by
      intro hc; nlinarith
    simp only [ScoringService.score_price, if_neg hn1, if_neg hn2]
    have hne : s.max_price - s.min_price ≠ 0 := by intro hc; nlinarith
    field_simp
    ring

/-- Witness for C2 on the sample service with budget 1000 to 2000. -/
theorem score_price_spec_witness :
    sSample.score_price ((sSample.min_price + sSample.max_price) / 2) = 50 :=
  (score_price_spec sSample 1500 (by with_unfolding_all decide)).2.2.2

/-- C7: with positive min_sqft the size sub-score is a neutral 50 for unknown
sqft, exactly 50 at min_sqft, the linear ramp up to 100 between min_sqft and
1.5 times min_sqft, capped at 100 beyond that, and max 0 (50 * sqft/min_sqft)
below min_sqft. -/
theorem score_size_spec (s : ScoringService) (h : 0 < s.min_sqft) :
    (s.score_size none = .ok 50) ∧
    (s.score_size (some s.min_sqft) = .ok 50) ∧
    (∀ v : ℤ, s.min_sqft ≤ v → (v : ℚ) ≤ 3/2 * (s.min_sqft : ℚ) →
      s.score_size (some v) = .ok (50 + 100 * ((v : ℚ) / (s.min_sqft : ℚ) - 1))) ∧
    (∀ v : ℤ, 3/2 * (s.min_sqft : ℚ) ≤ (v : ℚ) →
      s.score_size (some v) = .ok 100) ∧
    (∀ v : ℤ, v < s.min_sqft →
      s.score_size (some v) = .ok (max 0 (50 * ((v : ℚ) / (s.min_sqft : ℚ))))) := by
  have hz : s.min_sqft ≠ 0 := h.ne'
  have hq : (0 : ℚ) < (s.min_sqft : ℚ) := by exact_mod_cast h
  refine ⟨rfl, ?_, fun v h1 h2 => ?_, fun v h1 => ?_, fun v h1 => ?_⟩
  · simp only [ScoringService.score_size, if_neg hz, if_neg (lt_irrefl s.min_sqft)]
    rw [div_self hq.ne']
    norm_num
  · have hv : ¬ v < s.min_sqft := not_lt.mpr h1
    simp only [ScoringService.score_size, if_neg hz, if_neg hv]
    rw [min_eq_left ((div_le_iff hq).mpr (by linarith))]
    congr 1
    ring
  · have hvm : (s.min_sqft : ℚ) ≤ (v : ℚ) := by nlinarith
    have hv : ¬ v < s.min_sqft := not_lt.mpr (by exact_mod_cast hvm)
    simp only [ScoringService.score_size, if_neg hz, if_neg hv]
    rw [min_eq_right ((le_div_iff hq).mpr (by linarith))]
    norm_num
  · simp only [ScoringService.score_size, if_neg hz, if_pos h1]

/-- Witness for C7 on the sample service with min_sqft 100. -/
theorem score_size_spec_witness :
    sSample.score_size none = .ok 50 ∧ sSample.score_size (some 100) = .ok 50 :=
  ⟨(score_size_spec sSample (by with_unfolding_all decide)).1,
   (score_size_spec sSample (by with_unfolding_all decide)).2.1⟩

/-- C5 counterexample: the weight-sum validation failure raises ValueError;
no ConfigurationError class exists in the code. -/
theorem validate_error_class_counterexample :
    errClass wZero.validate = some "ValueError" ∧
    some "ValueError" ≠ some "ConfigurationError" ∧
    1/100 < |wZero.total - 1| := by
  with_unfolding_all decide

/-- Unfolding lemma for the ScoringService constructor with explicit weights. -/
theorem ScoringService.init_eq (minp maxp : ℚ) (msq : ℤ)
    (mh pref : List String) (w : ScoringWeights) :
    ScoringService.init minp maxp msq mh pref (some w) =
      match w.validate with
      | .error e => .error e
      | .ok _ => .ok ⟨minp, maxp, msq, mh.map pyLower, pref.map pyLower, w⟩ := rfl

/-- C5 as amended: a weight vector summing to 1.0 within the 0.01 tolerance
passes validate and ScoringService construction succeeds with it; any other
weight vector makes validate and construction fail with the descriptive
ValueError naming the actual sum. -/
theorem validate_weight_sum_spec (w : ScoringWeights) :
    (|w.total - 1| ≤ 1/100 →
      w.validate = .ok () ∧
      ∀ minp maxp msq mh pref,
        ScoringService.init minp maxp msq mh pref (some w) =
          .ok ⟨minp, maxp, msq, mh.map pyLower, pref.map pyLower, w⟩) ∧
    (1/100 < |w.total - 1| →
      w.validate = .error ⟨"ValueError",
        "Scoring weights must sum to 1.0, got " ++ toString w.total⟩ ∧
      ∀ minp maxp msq mh pref,
        ScoringService.init minp maxp msq mh pref (some w) =
          .error ⟨"ValueError",
            "Scoring weights must sum to 1.0, got " ++ toString w.total⟩) := by
  constructor
  · intro htol
    have hok : w.validate = .ok () := by
      simp only [ScoringWeights.validate, ScoringWeights.total] at htol ⊢
      rw [if_neg (not_lt.mpr htol)]
    refine ⟨hok, fun minp maxp msq mh pref => ?_⟩
    rw [ScoringService.init_eq, hok]
  · intro htol
    have herr : w.validate = .error ⟨"ValueError",
        "Scoring weights must sum to 1.0, got " ++ toString w.total⟩ := by
      simp only [ScoringWeights.validate, ScoringWeights.total] at htol ⊢
      rw [if_pos htol]
    refine ⟨herr, fun minp maxp msq mh pref => ?_⟩
    rw [ScoringService.init_eq, herr]

/-- Witness for amended C5: the default weights pass, the all-zero vector fails. -/
theorem validate_weight_sum_spec_witness :
    ({} : ScoringWeights).validate = .ok () ∧
    errClass wZero.validate = some "ValueError" := by
  refine ⟨((validate_weight_sum_spec {}).1 (by with_unfolding_all decide)).1, ?_⟩
  rw [((validate_weight_sum_spec wZero).2 (by with_unfolding_all decide)).1]
  rfl

/-- No key of the fallback table starts with USD underscore, since the table
only holds X to USD rates. -/
theorem lookupRate_usd_prefix (c : String) :
    lookupRate FALLBACK_RATES ("USD_" ++ c) = none := by
  have h1 : ("USD_" ++ c) ≠ "AED_USD" := by
    intro h; have h2 := congrArg String.data h; simp [String.data_append] at h2
  have h2 : ("USD_" ++ c) ≠ "EUR_USD" := by
    intro h; have h2 := congrArg String.data h; simp [String.data_append] at h2
  have h3 : ("USD_" ++ c) ≠ "GBP_USD" := by
    intro h; have h2 := congrArg String.data h; simp [String.data_append] at h2
  have h4 : ("USD_" ++ c) ≠ "DKK_USD" := by
    intro h; have h2 := congrArg String.data h; simp [String.data_append] at h2
  have h5 : ("USD_" ++ c) ≠ "IDR_USD" := by
    intro h; have h2 := congrArg String.data h; simp [String.data_append] at h2
  simp only [FALLBACK_RATES, lookupRate]
  rw [if_neg (Ne.symm h1), if_neg (Ne.symm h2), if_neg (Ne.symm h3),
    if_neg (Ne.symm h4), if_neg (Ne.symm h5)]

/-- When no live or cached rate is served, get_rate reduces to the fallback. -/
theorem getRate_of_noLiveRate (st : CurrencyState) (f t : String)
    (h : noLiveRate st (f ++ "_" ++ t)) :
    getRate st f t = fallbackRate (f ++ "_" ++ t) (t ++ "_" ++ f) := by
  obtain ⟨h1, h2⟩ := h
  unfold getRate
  have hfast : ¬ (st.cacheValid = true ∧ (lookupRate st.cache (f ++ "_" ++ t)).isSome = true) := by
    rcases h1 with h1 | h1
    · rintro ⟨hv, _⟩; rw [h1] at hv; exact Bool.false_ne_true hv
    · rintro ⟨_, hs⟩; rw [h1] at hs; simp at hs
  rw [if_neg hfast]
  unfold refreshedRate at h2
  rcases hro : st.refreshOutcome with _ | newCache
  · rfl
  · rw [hro] at h2
    dsimp only at h2
    dsimp only
    rcases h2 with h2 | h2 <;> rw [h2] <;> simp

/-- When get_rate gives up entirely, the direct fallback entry for the reverse
pair is absent as well (get_rate would otherwise have used its inverse). -/
theorem getRate_none_inverse (st : CurrencyState) (f t : String)
    (h : getRate st f t = none) :
    lookupRate FALLBACK_RATES (t ++ "_" ++ f) = none := by
  unfold getRate at h
  by_cases hfast : st.cacheValid = true ∧ (lookupRate st.cache (f ++ "_" ++ t)).isSome = true
  · rw [if_pos hfast] at h
    rw [h] at hfast
    simp at hfast
  · rw [if_neg hfast] at h
    have hfb : fallbackRate (f ++ "_" ++ t) (t ++ "_" ++ f) = none := by
      rcases hro : st.refreshOutcome with _ | newCache
      · rw [hro] at h; exact h
      · rw [hro] at h
        dsimp only at h
        rcases hlk : lookupRate newCache (f ++ "_" ++ t) with _ | r
        · rw [hlk] at h; exact h
        · rw [hlk] at h
          dsimp only at h
          by_cases hr : r = 0
          · rwa [if_neg (show ¬ r ≠ 0 from fun hc => hc hr)] at h
          · rw [if_pos hr] at h; exact absurd h (by simp)
    unfold fallbackRate at hfb
    rcases hd : lookupRate FALLBACK_RATES (f ++ "_" ++ t) with _ | d
    · rw [hd] at hfb
      rcases hi : lookupRate FALLBACK_RATES (t ++ "_" ++ f) with _ | i
      · rfl
      · rw [hi] at hfb; exact absurd hfb (by simp)
    · rw [hd] at hfb; exact absurd hfb (by simp)

/-- Concatenation of the underscore separator with USD matches the literal
fallback-key suffix. -/
theorem append_usd_key (c : String) : c ++ "_" ++ "USD" = c ++ "_USD" := by
  rw [String.append_assoc]
  rfl

/-- C6: convert_from_usd always returns a number: identity on USD, the rounded
product with the served rate when one is obtainable, the inverse of the
hardcoded X to USD fallback rate when no live rate is served, and the USD
amount unchanged as a last resort. -/
theorem convert_from_usd_spec (st : CurrencyState) (amount : ℚ) (cur : String) :
    (cur = "USD" → convert_from_usd st amount cur = amount) ∧
    (∀ r, cur ≠ "USD" → getRate st "USD" cur = some r →
      convert_from_usd st amount cur = round2 (amount * r)) ∧
    (cur ≠ "USD" → getRate st "USD" cur = none →
      convert_from_usd st amount cur = amount) ∧
    (cur ≠ "USD" → noLiveRate st ("USD_" ++ cur) →
      ∀ f, lookupRate FALLBACK_RATES (cur ++ "_USD") = some f →
        convert_from_usd st amount cur = round2 (amount * (1 / f))) := by
  refine ⟨fun hu => ?_, fun r hu hr => ?_, fun hu hr => ?_, fun hu hn f hf => ?_⟩
  · simp only [convert_from_usd, if_pos hu]
  · simp only [convert_from_usd, if_neg hu, hr]
  · have hinv := getRate_none_inverse st "USD" cur hr
    rw [append_usd_key] at hinv
    simp only [convert_from_usd, if_neg hu, hr, hinv]
  · have hg := getRate_of_noLiveRate st "USD" cur hn
    have hdirect : lookupRate FALLBACK_RATES ("USD" ++ "_" ++ cur) = none := by
      have := lookupRate_usd_prefix cur
      rw [show ("USD" ++ "_" ++ cur) = ("USD_" ++ cur) from rfl]
      exact this
    have hfb : fallbackRate ("USD" ++ "_" ++ cur) (cur ++ "_" ++ "USD") = some (1 / f) := by
      unfold fallbackRate
      rw [hdirect, append_usd_key, hf]
    rw [hfb] at hg
    simp only [convert_from_usd, if_neg hu, hg]

/-- Witness for C6: USD identity, the AED fallback at rate 0.27 when offline,
an unknown currency returned unchanged, and the fallback also used when the
rate source is down while an expired cache still holds a stale rate. -/
theorem convert_from_usd_spec_witness :
    convert_from_usd stOffline 27 "USD" = 27 ∧
    convert_from_usd stOffline 27 "AED" = round2 (27 * (1 / (27/100))) ∧
    convert_from_usd stOffline 27 "XYZ" = 27 ∧
    convert_from_usd stStale 27 "AED" = round2 (27 * (1 / (27/100))) :=
  ⟨(convert_from_usd_spec stOffline 27 "USD").1 rfl,
   (convert_from_usd_spec stOffline 27 "AED").2.2.2 (by with_unfolding_all decide)
     (by with_unfolding_all decide) (27/100) (by with_unfolding_all decide),
   (convert_from_usd_spec stOffline 27 "XYZ").2.2.1 (by with_unfolding_all decide)
     (by with_unfolding_all decide),
   (convert_from_usd_spec stStale 27 "AED").2.2.2 (by with_unfolding_all decide)
     (by with_unfolding_all decide) (27/100) (by with_unfolding_all decide)⟩

/-- C8 counterexample: with days equal to 0 the Python expression
days or EXPIRY_DAYS falls back to the 30-day default, so a row one day old is
retained although it is strictly older than now minus 0 days, and the returned
count is 0 rather than 1. -/
theorem cleanup_days_zero_counterexample :
    rowOld.last_seen_at < 100 - ((0 : ℤ) : ℚ) ∧
    (cleanup_old_listings 100 [("a", rowOld)] (some 0)).2 = 0 ∧
    (cleanup_old_listings 100 [("a", rowOld)] (some 0)).1 = [("a", rowOld)] := by
  with_unfolding_all decide

/-- C8 as amended: for every nonzero days argument, cleanup_old_listings keeps
exactly the rows not strictly older than now minus days and returns the exact
count of deleted rows; passing None behaves like passing 30. -/
theorem cleanup_old_listings_spec (now : ℚ) (db : DedupDB) (d : ℤ) (hd : d ≠ 0) :
    (∀ p : String × SeenRow,
      p ∈ (cleanup_old_listings now db (some d)).1 ↔
        p ∈ db ∧ ¬ p.2.last_seen_at < now - (d : ℚ)) ∧
    ((cleanup_old_listings now db (some d)).2 =
      (db.filter (fun p => p.2.last_seen_at < now - (d : ℚ))).length) ∧
    cleanup_old_listings now db none = cleanup_old_listings now db (some 30) := by
  have he : effectiveDays (some d) = d := by simp [effectiveDays, hd]
  refine ⟨fun p => ?_, ?_, ?_⟩
  · simp [cleanup_old_listings, he, List.mem_filter]
  · simp [cleanup_old_listings, he]
  · rfl

/-- Witness for amended C8: a one-day-old row survives a 30-day cleanup. -/
theorem cleanup_old_listings_spec_witness :
    ("a", rowOld) ∈ (cleanup_old_listings 100 [("a", rowOld)] (some 30)).1 ↔
      ("a", rowOld) ∈ [("a", rowOld)] ∧ ¬ rowOld.last_seen_at < 100 - ((30 : ℤ) : ℚ) :=
  (cleanup_old_listings_spec 100 [("a", rowOld)] 30 (by decide)).1 ("a", rowOld)

/-- The first component of a row is untouched by the mark-sent row action. -/
theorem markKey_fst (now : ℚ) (ids : List String) (p : String × SeenRow) :
    (markKey now ids p).1 = p.1 := by
  by_cases h : p.1 ∈ ids <;> simp [markKey, h]

/-- Marking a row sent twice is the same as marking it once. -/
theorem markKey_idem (now : ℚ) (ids : List String) (p : String × SeenRow) :
    markKey now ids (markKey now ids p) = markKey now ids p := by
  by_cases h : p.1 ∈ ids <;> simp [markKey, h]

/-- mark_as_sent is one map over the table, keyed on the batch ids. -/
theorem mark_as_sent_eq_map (now : ℚ) (db : DedupDB) (apts : List Apartment) :
    mark_as_sent now db apts = db.map (markKey now (apts.map (·.source_id))) := by
  induction apts generalizing db with
  | nil =>
    show db = db.map (markKey now [])
    have h0 : markKey now ([] : List String) = fun p => p := by
      funext p; simp [markKey]
    rw [h0, List.map_id']
  | cons a rest ih =>
    have step : mark_as_sent now db (a :: rest) =
        mark_as_sent now
          (db.map fun p => if p.1 = a.source_id then
            (p.1, { p.2 with sent_in_email := true, sent_at := some now }) else p)
          rest := rfl
    rw [step, ih, List.map_map]
    have hfun : ∀ p : String × SeenRow,
        (markKey now (rest.map (·.source_id)) ∘ fun p =>
          if p.1 = a.source_id then
            (p.1, { p.2 with sent_in_email := true, sent_at := some now }) else p) p
        = markKey now (a.source_id :: rest.map (·.source_id)) p := by
      intro p
      by_cases hpa : p.1 = a.source_id
      · by_cases hpr : p.1 ∈ rest.map (·.source_id) <;>
          simp [Function.comp, markKey, hpa, hpr]
      · by_cases hpr : p.1 ∈ rest.map (·.source_id) <;>
          simp [Function.comp, markKey, List.mem_cons, hpa, hpr]
    rw [funext hfun]
    simp only [List.map_cons]

/-- Lookup through the mark-sent map: the stored row gets the sent fields set
exactly when its id is in the batch. -/
theorem lookupRow_map_markKey (now : ℚ) (ids : List String) (db : DedupDB)
    (id : String) :
    lookupRow (db.map (markKey now ids)) id =
      (lookupRow db id).map (fun r =>
        if id ∈ ids then { r with sent_in_email := true, sent_at := some now }
        else r) := by
  induction db with
  | nil => rfl
  | cons p rest ih =>
    rw [List.map_cons]
    show (if (markKey now ids p).1 = id then some (markKey now ids p).2
      else lookupRow (rest.map (markKey now ids)) id) = _
    rw [markKey_fst]
    by_cases hk : p.1 = id
    · rw [if_pos hk]
      show _ = (if p.1 = id then some p.2 else lookupRow rest id).map _
      rw [if_pos hk]
      by_cases hm : id ∈ ids
      · simp [markKey, hk, hm]
      · simp [markKey, hk, hm]
    · rw [if_neg hk, ih]
      show _ = (if p.1 = id then some p.2 else lookupRow rest id).map _
      rw [if_neg hk]

set_option maxRecDepth 8000 in
/-- C4 counterexample: re-marking an already-sent listing at a later time is
not a no-op: the stored row's sent_at is overwritten with the new time. -/
theorem mark_as_sent_overwrites_counterexample :
    rowSent.sent_in_email = true ∧ rowSent.sent_at = some 1 ∧
    lookupRow (mark_as_sent 2 [("a", rowSent)] [aptA]) "a" =
      some { rowSent with sent_at := some 2 } ∧
    mark_as_sent 2 [("a", rowSent)] [aptA] ≠ [("a", rowSent)] := by
  with_unfolding_all decide

/-- C4 as amended: mark_as_sent never errors and is idempotent at a fixed
timestamp; rows outside the batch are untouched; a batched row has its sent
fields set; for an already-sent row only sent_at changes, moving to the time
of the latest call, while sent_in_email stays true. -/
theorem mark_as_sent_spec (now : ℚ) (db : DedupDB) (apts : List Apartment) :
    mark_as_sent now (mark_as_sent now db apts) apts = mark_as_sent now db apts ∧
    (∀ id, id ∉ apts.map (·.source_id) →
      lookupRow (mark_as_sent now db apts) id = lookupRow db id) ∧
    (∀ id r, id ∈ apts.map (·.source_id) → lookupRow db id = some r →
      lookupRow (mark_as_sent now db apts) id =
        some { r with sent_in_email := true, sent_at := some now }) ∧
    (∀ id r, id ∈ apts.map (·.source_id) → lookupRow db id = some r →
      r.sent_in_email = true →
      lookupRow (mark_as_sent now db apts) id = some { r with sent_at := some now }) := by
  have hmap := mark_as_sent_eq_map now db apts
  have h3 : ∀ id r, id ∈ apts.map (·.source_id) → lookupRow db id = some r →
      lookupRow (mark_as_sent now db apts) id =
        some { r with sent_in_email := true, sent_at := some now } := by
    intro id r hm hr
    rw [hmap, lookupRow_map_markKey, hr]
    simp [hm]
  refine ⟨?_, fun id hm => ?_, h3, fun id r hm hr hsent => ?_⟩
  · rw [hmap, mark_as_sent_eq_map, List.map_map]
    have hc : markKey now (apts.map (·.source_id)) ∘ markKey now (apts.map (·.source_id))
        = markKey now (apts.map (·.source_id)) := funext fun p => markKey_idem _ _ p
    rw [hc]
  · rw [hmap, lookupRow_map_markKey]
    rcases lookupRow db id with _ | r
    · rfl
    · simp [hm]
  · rw [h3 id r hm hr]
    cases r
    simp_all

set_option maxRecDepth 8000 in
/-- Witness for amended C4: re-marking the sent row at time 5 keeps
sent_in_email true and moves sent_at to 5. -/
theorem mark_as_sent_spec_witness :
    lookupRow (mark_as_sent 5 [("a", rowSent)] [aptA]) "a" =
      some { rowSent with sent_at := some 5 } :=
  (mark_as_sent_spec 5 [("a", rowSent)] [aptA]).2.2.2 "a" rowSent
    (by with_unfolding_all decide) (by with_unfolding_all decide)
    (by with_unfolding_all decide)

/-- Lookup distributes over table concatenation, preferring the left part. -/
theorem lookupRow_append (db1 db2 : DedupDB) (id : String) :
    lookupRow (db1 ++ db2) id = (lookupRow db1 id).or (lookupRow db2 id) := by
  induction db1 with
  | nil => rfl
  | cons p rest ih =>
    show (if p.1 = id then some p.2 else lookupRow (rest ++ db2) id) = _
    by_cases hk : p.1 = id
    · rw [if_pos hk]
      show _ = ((if p.1 = id then some p.2 else lookupRow rest id).or _)
      rw [if_pos hk]
      rfl
    · rw [if_neg hk, ih]
      show _ = ((if p.1 = id then some p.2 else lookupRow rest id).or _)
      rw [if_neg hk]

/-- Lookup through the last-seen update: only last_seen_at of the keyed row
changes. -/
theorem lookupRow_updateLastSeen (db : DedupDB) (kid : String) (now : ℚ)
    (id : String) :
    lookupRow (updateLastSeen db kid now) id =
      (lookupRow db id).map
        (fun r => if id = kid then { r with last_seen_at := now } else r) := by
  induction db with
  | nil => rfl
  | cons p rest ih =>
    show (if (if p.1 = kid then (p.1, { p.2 with last_seen_at := now }) else p).1 = id
      then some (if p.1 = kid then (p.1, { p.2 with last_seen_at := now }) else p).2
      else lookupRow (updateLastSeen rest kid now) id) = _
    have hfst : (if p.1 = kid then (p.1, { p.2 with last_seen_at := now }) else p).1 = p.1 := by
      by_cases h : p.1 = kid <;> simp [h]
    rw [hfst]
    by_cases hk : p.1 = id
    · rw [if_pos hk]
      show _ = ((if p.1 = id then some p.2 else lookupRow rest id).map _)
      rw [if_pos hk]
      by_cases hkid : p.1 = kid
      · rw [if_pos hkid]
        simp [← hk, hkid]
      · rw [if_neg hkid]
        simp [← hk, hkid]
    · rw [if_neg hk, ih]
      show _ = ((if p.1 = id then some p.2 else lookupRow rest id).map _)
      rw [if_neg hk]

/-- First component of one filter step: insert an unseen row, otherwise
refresh last_seen_at. -/
theorem filterStep_fst (db : DedupDB) (apt : Apartment) (now : ℚ) :
    (filterStep db apt now).1 =
      match lookupRow db apt.source_id with
      | none => insertRow db apt now
      | some _ => updateLastSeen db apt.source_id now := by
  unfold filterStep
  rcases lookupRow db apt.source_id with _ | row
  · rfl
  · dsimp only
    by_cases h : row.sent_in_email = true
    · rw [if_neg (by simp [h])]
    · rw [if_pos (by simp [h])]

/-- Second component of one filter step: the inclusion decision is exactly the
eligibility of the id in the incoming table. -/
theorem filterStep_snd (db : DedupDB) (apt : Apartment) (now : ℚ) :
    (filterStep db apt now).2 = eligible db apt.source_id := by
  unfold filterStep eligible
  rcases lookupRow db apt.source_id with _ | row
  · rfl
  · dsimp only
    by_cases h : row.sent_in_email = true
    · rw [if_neg (by simp [h])]
      simp [h]
    · rw [if_pos (by simp [h])]
      simp [h]

/-- Inserting a fresh unsent row keeps every eligibility value unchanged. -/
theorem eligible_insertRow (db : DedupDB) (apt : Apartment) (now : ℚ)
    (id : String) :
    eligible (insertRow db apt now) id = eligible db id := by
  unfold eligible insertRow
  rw [lookupRow_append]
  rcases lookupRow db id with _ | r
  · by_cases hid : apt.source_id = id <;> simp [lookupRow, hid, Option.or]
  · rfl

/-- Refreshing last_seen_at keeps every eligibility value unchanged. -/
theorem eligible_updateLastSeen (db : DedupDB) (kid : String) (now : ℚ)
    (id : String) :
    eligible (updateLastSeen db kid now) id = eligible db id := by
  unfold eligible
  rw [lookupRow_updateLastSeen]
  rcases lookupRow db id with _ | r
  · rfl
  · by_cases hid : id = kid <;> simp [hid]

/-- One filter step keeps every eligibility value unchanged. -/
theorem eligible_filterStep (db : DedupDB) (apt : Apartment) (now : ℚ)
    (id : String) :
    eligible (filterStep db apt now).1 id = eligible db id := by
  rw [filterStep_fst]
  rcases lookupRow db apt.source_id with _ | row
  · exact eligible_insertRow db apt now id
  · exact eligible_updateLastSeen db apt.source_id now id

/-- A whole filter pass keeps every eligibility value unchanged. -/
theorem eligible_filter_new_listings (now : ℚ) (db : DedupDB)
    (apts : List Apartment) (id : String) :
    eligible (filter_new_listings now db apts).1 id = eligible db id := by
  induction apts generalizing db with
  | nil => rfl
  | cons a rest ih =>
    show eligible (filter_new_listings now (filterStep db a now).1 rest).1 id = _
    rw [ih, eligible_filterStep]

/-- Membership in the filter output: an apartment of the batch is returned
exactly when its id had no row or an unsent row in the incoming table. -/
theorem mem_filter_new_listings (now : ℚ) (db : DedupDB)
    (apts : List Apartment) (apt : Apartment) :
    apt ∈ (filter_new_listings now db apts).2 ↔
      apt ∈ apts ∧ eligible db apt.source_id = true := by
  induction apts generalizing db with
  | nil => simp [filter_new_listings]
  | cons a rest ih =>
    show apt ∈ (if (filterStep db a now).2 then
        a :: (filter_new_listings now (filterStep db a now).1 rest).2
      else (filter_new_listings now (filterStep db a now).1 rest).2) ↔ _
    rw [filterStep_snd]
    by_cases ha : eligible db a.source_id = true
    · rw [if_pos ha]
      simp only [List.mem_cons, ih, eligible_filterStep]
      constructor
      · rintro (rfl | ⟨h1, h2⟩)
        · exact ⟨Or.inl rfl, ha⟩
        · exact ⟨Or.inr h1, h2⟩
      · rintro ⟨rfl | h1, h2⟩
        · exact Or.inl rfl
        · exact Or.inr ⟨h1, h2⟩
    · rw [if_neg ha, ih, eligible_filterStep]
      simp only [List.mem_cons]
      constructor
      · rintro ⟨h1, h2⟩
        exact ⟨Or.inr h1, h2⟩
      · rintro ⟨rfl | h1, h2⟩
        · exact absurd h2 ha
        · exact ⟨h1, h2⟩

/-- One filter step never deletes a tracked row. -/
theorem lookupRow_filterStep_some (db : DedupDB) (apt : Apartment) (now : ℚ)
    (id : String) (r : SeenRow) (h : lookupRow db id = some r) :
    ∃ r2, lookupRow (filterStep db apt now).1 id = some r2 := by
  rw [filterStep_fst]
  rcases lookupRow db apt.source_id with _ | row
  · refine ⟨r, ?_⟩
    unfold insertRow
    rw [lookupRow_append, h]
    rfl
  · rw [lookupRow_updateLastSeen, h]
    exact ⟨_, rfl⟩

/-- A whole filter pass never deletes a tracked row. -/
theorem lookupRow_filter_new_listings_some (now : ℚ) (db : DedupDB)
    (apts : List Apartment) (id : String) (r : SeenRow)
    (h : lookupRow db id = some r) :
    ∃ r2, lookupRow (filter_new_listings now db apts).1 id = some r2 := by
  induction apts generalizing db r with
  | nil => exact ⟨r, h⟩
  | cons a rest ih =>
    show ∃ r2, lookupRow (filter_new_listings now (filterStep db a now).1 rest).1 id = some r2
    obtain ⟨r2, h2⟩ := lookupRow_filterStep_some db a now id r h
    exact ih _ r2 h2

/-- After processing, a batched listing always has a row. -/
theorem lookupRow_filterStep_self (db : DedupDB) (apt : Apartment) (now : ℚ) :
    ∃ r2, lookupRow (filterStep db apt now).1 apt.source_id = some r2 := by
  rw [filterStep_fst]
  rcases h : lookupRow db apt.source_id with _ | row
  · refine ⟨⟨apt.source_name, apt.city, apt.title, apt.price_usd, apt.url,
      now, now, false, none⟩, ?_⟩
    unfold insertRow
    rw [lookupRow_append, h]
    simp [lookupRow, Option.or]
  · rw [lookupRow_updateLastSeen, h]
    exact ⟨_, rfl⟩

/-- Marking a tracked listing sent makes it ineligible. -/
theorem eligible_mark_as_sent (now : ℚ) (db : DedupDB) (apts : List Apartment)
    (id : String) (r : SeenRow) (hr : lookupRow db id = some r)
    (hm : id ∈ apts.map (·.source_id)) :
    eligible (mark_as_sent now db apts) id = false := by
  rw [mark_as_sent_eq_map]
  unfold eligible
  rw [lookupRow_map_markKey, hr]
  simp [hm]

/-- C3: filter_new_listings realizes the dedup state machine.  A batched
apartment is returned exactly when its id has no row or an unsent row; an
eligible listing is returned by two successive calls, and excluded once
mark_as_sent has run; for an already-sent listing the call returns nothing
and only updates last_seen_at of its row. -/
theorem filter_new_listings_state_machine
    (now1 now2 now3 now4 : ℚ) (db : DedupDB) (apts : List Apartment)
    (apt : Apartment) :
    (apt ∈ (filter_new_listings now1 db apts).2 ↔
      apt ∈ apts ∧ eligible db apt.source_id = true) ∧
    (eligible db apt.source_id = true →
      apt ∈ (filter_new_listings now1 db [apt]).2 ∧
      apt ∈ (filter_new_listings now2 (filter_new_listings now1 db [apt]).1 [apt]).2 ∧
      apt ∉ (filter_new_listings now4
        (mark_as_sent now3
          (filter_new_listings now2 (filter_new_listings now1 db [apt]).1 [apt]).1
          [apt])
        [apt]).2) ∧
    (∀ r, lookupRow db apt.source_id = some r → r.sent_in_email = true →
      filter_new_listings now1 db [apt] =
        (updateLastSeen db apt.source_id now1, [])) := by
  refine ⟨mem_filter_new_listings now1 db apts apt, fun helig => ?_, fun r hr hsent => ?_⟩
  · have h1 : apt ∈ (filter_new_listings now1 db [apt]).2 :=
      (mem_filter_new_listings now1 db [apt] apt).mpr ⟨List.mem_singleton_self apt, helig⟩
    have helig1 : eligible (filter_new_listings now1 db [apt]).1 apt.source_id = true := by
      rw [eligible_filter_new_listings]; exact helig
    have h2 : apt ∈ (filter_new_listings now2 (filter_new_listings now1 db [apt]).1 [apt]).2 :=
      (mem_filter_new_listings _ _ [apt] apt).mpr ⟨List.mem_singleton_self apt, helig1⟩
    refine ⟨h1, h2, ?_⟩
    have htr1 : ∃ r2, lookupRow (filter_new_listings now1 db [apt]).1 apt.source_id = some r2 := by
      show ∃ r2, lookupRow (filter_new_listings now1 (filterStep db apt now1).1 []).1
        apt.source_id = some r2
      obtain ⟨r2, h2'⟩ := lookupRow_filterStep_self db apt now1
      exact ⟨r2, h2'⟩
    obtain ⟨r1, hr1⟩ := htr1
    obtain ⟨r2, hr2⟩ :=
      lookupRow_filter_new_listings_some now2 (filter_new_listings now1 db [apt]).1
        [apt] apt.source_id r1 hr1
    have hinelig : eligible
        (mark_as_sent now3
          (filter_new_listings now2 (filter_new_listings now1 db [apt]).1 [apt]).1 [apt])
        apt.source_id = false :=
      eligible_mark_as_sent now3 _ [apt] apt.source_id r2 hr2 (by simp)
    intro hmem
    have := (mem_filter_new_listings now4 _ [apt] apt).mp hmem
    rw [hinelig] at this
    exact Bool.false_ne_true this.2
  · have hne : filter_new_listings now1 db [apt] =
        ((filterStep db apt now1).1, if (filterStep db apt now1).2 then [apt] else []) := rfl
    have hstep1 : (filterStep db apt now1).1 = updateLastSeen db apt.source_id now1 := by
      rw [filterStep_fst, hr]
    have hstep2 : (filterStep db apt now1).2 = false := by
      rw [filterStep_snd]
      unfold eligible
      rw [hr]
      simp [hsent]
    rw [hne, hstep1, hstep2]
    rfl

set_option maxRecDepth 8000 in
/-- Witness for C3: a fresh listing survives two filter passes over an empty
table and is excluded after mark_as_sent. -/
theorem filter_new_listings_state_machine_witness :
    aptSample ∈ (filter_new_listings 1 [] [aptSample]).2 ∧
    aptSample ∈ (filter_new_listings 2 (filter_new_listings 1 [] [aptSample]).1 [aptSample]).2 ∧
    aptSample ∉ (filter_new_listings 4
      (mark_as_sent 3
        (filter_new_listings 2 (filter_new_listings 1 [] [aptSample]).1 [aptSample]).1
        [aptSample])
      [aptSample]).2 :=
  (filter_new_listings_state_machine 1 2 3 4 [] [aptSample] aptSample).2.1
    (by with_unfolding_all decide)

/-- With a nonzero min_sqft the size sub-score never raises. -/
theorem score_size_ok (s : ScoringService) (h : s.min_sqft ≠ 0) (sqft : Option ℤ) :
    ∃ q, s.score_size sqft = .ok q := by
  rcases sqft with _ | v
  · exact ⟨50, rfl⟩
  · show ∃ q, (if s.min_sqft = 0 then
        (.error ⟨"ZeroDivisionError", "division by zero"⟩ : Except PyError ℚ)
      else if v < s.min_sqft then .ok (max 0 (50 * ((v : ℚ) / (s.min_sqft : ℚ))))
      else .ok (50 + 50 * (min ((v : ℚ) / (s.min_sqft : ℚ)) (3/2) - 1) / (1/2))) = .ok q
    rw [if_neg h]
    by_cases hv : v < s.min_sqft
    · rw [if_pos hv]; exact ⟨_, rfl⟩
    · rw [if_neg hv]; exact ⟨_, rfl⟩

/-- With a USD price present and nonzero min_sqft, calculate_score succeeds. -/
theorem calculate_score_ok (s : ScoringService) (now : ℚ) (apt : Apartment)
    (h : s.min_sqft ≠ 0) (p : ℚ) (hp : apt.price_usd = some p) :
    ∃ sc b, s.calculate_score now apt = .ok (sc, b) := by
  obtain ⟨q, hq⟩ := score_size_ok s h apt.sqft
  unfold ScoringService.calculate_score
  rw [hp]
  dsimp only
  rw [hq]
  exact ⟨_, _, rfl⟩

/-- Unfolding lemma for withScore on the success path. -/
theorem withScore_eq (s : ScoringService) (now : ℚ) (apt : Apartment)
    (sc : ℚ) (b : ScoreBreakdown) (h : s.calculate_score now apt = .ok (sc, b)) :
    s.withScore now apt = { apt with score := some sc, score_breakdown := some b } := by
  unfold ScoringService.withScore
  rw [h]

/-- The filter predicate spelled out: must-haves met, price present, and the
price inside the inclusive budget bounds. -/
theorem passes_filter_iff (s : ScoringService) (apt : Apartment) :
    s.passes_filter apt = true ↔
      apt.meets_must_haves s.must_haves = true ∧
      ∃ p, apt.price_usd = some p ∧ s.min_price ≤ p ∧ p ≤ s.max_price := by
  unfold ScoringService.passes_filter
  rcases hp : apt.price_usd with _ | p
  · simp [hp]
  · simp [hp, Bool.and_eq_true, decide_eq_true_eq]

/-- The filter-and-score loop keeps exactly the apartments passing the three
checks, each annotated with its score, in input order. -/
theorem scoreLoop_eq (s : ScoringService) (now : ℚ) (h : s.min_sqft ≠ 0)
    (apts : List Apartment) :
    s.scoreLoop now apts =
      .ok ((apts.filter (fun a => s.passes_filter a)).map (s.withScore now)) := by
  induction apts with
  | nil => rfl
  | cons apt rest ih =>
    rw [show s.scoreLoop now (apt :: rest) =
      (if ¬ apt.meets_must_haves s.must_haves then s.scoreLoop now rest
      else match apt.price_usd with
        | none => s.scoreLoop now rest
        | some p =>
          if p < s.min_price ∨ p > s.max_price then s.scoreLoop now rest
          else match s.calculate_score now apt with
            | .error e => .error e
            | .ok (sc, b) =>
              match s.scoreLoop now rest with
              | .error e => .error e
              | .ok out =>
                .ok ({ apt with score := some sc, score_breakdown := some b } :: out))
      from rfl]
    by_cases hm : apt.meets_must_haves s.must_haves = true
    · rw [if_neg (by simp [hm])]
      rcases hp : apt.price_usd with _ | p
      · have hpass : s.passes_filter apt = false := by
          simp [ScoringService.passes_filter, hp]
        simp [ih, List.filter_cons, hpass]
      · dsimp only
        by_cases hr : p < s.min_price ∨ p > s.max_price
        · rw [if_pos hr]
          have hpass : s.passes_filter apt = false := by
            unfold ScoringService.passes_filter
            rw [hp]
            rcases hr with h1 | h1
            · have hd : decide (s.min_price ≤ p) = false := by
                simp [not_le.mpr h1]
              simp [hd]
            · have hd : decide (p ≤ s.max_price) = false := by
                simp [not_le.mpr h1]
              simp [hd]
          simp [ih, List.filter_cons, hpass]
        · rw [if_neg hr]
          push_neg at hr
          obtain ⟨sc, b, hcalc⟩ := calculate_score_ok s now apt h p hp
          rw [hcalc, ih]
          have hpass : s.passes_filter apt = true := by
            unfold ScoringService.passes_filter
            rw [hp, hm]
            simp [hr.1, hr.2]
          dsimp only
          rw [List.filter_cons]
          simp only [hpass, if_pos, List.map_cons,
            withScore_eq s now apt sc b hcalc]
          rw [hp]
    · rw [if_pos (by simp [hm])]
      have hpass : s.passes_filter apt = false := by
        unfold ScoringService.passes_filter
        rw [Bool.not_eq_true] at hm
        simp [hm]
      simp [ih, List.filter_cons, hpass]

/-- C1: with nonzero min_sqft (the totality operating condition of C10),
score_apartments succeeds and its output is a permutation of exactly the
passing apartments, each carrying a populated score and score_breakdown;
the filter predicate keeps exactly the apartments meeting the must-haves
with a present USD price inside the inclusive budget bounds, so prices at
either bound are retained. -/
theorem score_apartments_filters_exactly (s : ScoringService) (now : ℚ)
    (apts : List Apartment) (h : s.min_sqft ≠ 0) :
    ∃ out, s.score_apartments now apts = .ok out ∧
      out.Perm ((apts.filter (fun a => s.passes_filter a)).map (s.withScore now)) ∧
      (∀ a ∈ out, a.score.isSome = true ∧ a.score_breakdown.isSome = true) ∧
      (∀ a : Apartment, s.passes_filter a = true ↔
        a.meets_must_haves s.must_haves = true ∧
        ∃ p, a.price_usd = some p ∧ s.min_price ≤ p ∧ p ≤ s.max_price) := by
  have hloop := scoreLoop_eq s now h apts
  refine ⟨List.insertionSort (fun a b => (b.score.getD 0) ≤ (a.score.getD 0))
      ((apts.filter (fun a => s.passes_filter a)).map (s.withScore now)), ?_,
    List.perm_insertionSort _ _, ?_, fun a => passes_filter_iff s a⟩
  · unfold ScoringService.score_apartments
    rw [hloop]
  · intro a ha
    have ha2 : a ∈ (apts.filter (fun a => s.passes_filter a)).map (s.withScore now) :=
      (List.perm_insertionSort _ _).mem_iff.mp ha
    obtain ⟨a0, ha0, rfl⟩ := List.mem_map.mp ha2
    have hpass := (List.mem_filter.mp ha0).2
    obtain ⟨hm, p, hp, _, _⟩ := (passes_filter_iff s a0).mp hpass
    obtain ⟨sc, b, hcalc⟩ := calculate_score_ok s now a0 h p hp
    rw [withScore_eq s now a0 sc b hcalc]
    exact ⟨rfl, rfl⟩

set_option maxRecDepth 8000 in
/-- Witness for C1 on the sample service and one in-budget apartment. -/
theorem score_apartments_filters_exactly_witness :
    ∃ out, sSample.score_apartments 0 [aptSample] = .ok out ∧
      out.Perm ((([aptSample].filter (fun a => sSample.passes_filter a)).map
        (sSample.withScore 0))) ∧
      (∀ a ∈ out, a.score.isSome = true ∧ a.score_breakdown.isSome = true) ∧
      (∀ a : Apartment, sSample.passes_filter a = true ↔
        a.meets_must_haves sSample.must_haves = true ∧
        ∃ p, a.price_usd = some p ∧ sSample.min_price ≤ p ∧ p ≤ sSample.max_price) :=
  score_apartments_filters_exactly sSample 0 [aptSample] (by with_unfolding_all decide)

/-- The price sub-score always lies between 0 and 100. -/
theorem score_price_bounds (s : ScoringService) (p : ℚ) :
    0 ≤ s.score_price p ∧ s.score_price p ≤ 100 := by
  unfold ScoringService.score_price
  by_cases h1 : p ≤ s.min_price
  · rw [if_pos h1]; norm_num
  · rw [if_neg h1]
    by_cases h2 : p ≥ s.max_price
    · rw [if_pos h2]; norm_num
    · rw [if_neg h2]
      push_neg at h1 h2
      have hrange : 0 < s.max_price - s.min_price := by linarith
      have hlt : (p - s.min_price) / (s.max_price - s.min_price) < 1 :=
        (div_lt_one hrange).mpr (by linarith)
      have hge : 0 < (p - s.min_price) / (s.max_price - s.min_price) :=
        div_pos (by linarith) hrange
      constructor <;> nlinarith

/-- With positive min_sqft a successful size sub-score lies between 0 and 100. -/
theorem score_size_bounds (s : ScoringService) (hm : 0 < s.min_sqft)
    (sqft : Option ℤ) (q : ℚ) (h : s.score_size sqft = .ok q) :
    0 ≤ q ∧ q ≤ 100 := by
  have hq : (0 : ℚ) < (s.min_sqft : ℚ) := by exact_mod_cast hm
  rcases sqft with _ | v
  · have h50 : (50 : ℚ) = q := by
      simpa [ScoringService.score_size] using h
    rw [← h50]; norm_num
  · rw [show s.score_size (some v) =
      (if s.min_sqft = 0 then
        (.error ⟨"ZeroDivisionError", "division by zero"⟩ : Except PyError ℚ)
      else if v < s.min_sqft then .ok (max 0 (50 * ((v : ℚ) / (s.min_sqft : ℚ))))
      else .ok (50 + 50 * (min ((v : ℚ) / (s.min_sqft : ℚ)) (3/2) - 1) / (1/2)))
      from rfl] at h
    rw [if_neg hm.ne'] at h
    by_cases hv : v < s.min_sqft
    · rw [if_pos hv] at h
      have hqv : max 0 (50 * ((v : ℚ) / (s.min_sqft : ℚ))) = q := by simpa using h
      rw [← hqv]
      refine ⟨le_max_left 0 _, max_le (by norm_num) ?_⟩
      have hvlt : (v : ℚ) < (s.min_sqft : ℚ) := by exact_mod_cast hv
      have : (v : ℚ) / (s.min_sqft : ℚ) < 1 := (div_lt_one hq).mpr hvlt
      nlinarith
    · rw [if_neg hv] at h
      have hqv : 50 + 50 * (min ((v : ℚ) / (s.min_sqft : ℚ)) (3/2) - 1) / (1/2) = q := by
        simpa using h
      have hvge : (s.min_sqft : ℚ) ≤ (v : ℚ) := by exact_mod_cast not_lt.mp hv
      have h1 : (1 : ℚ) ≤ (v : ℚ) / (s.min_sqft : ℚ) :=
        (one_le_div hq).mpr hvge
      have hminub : min ((v : ℚ) / (s.min_sqft : ℚ)) (3/2) ≤ 3/2 := min_le_right _ _
      have hminlb : (1 : ℚ) ≤ min ((v : ℚ) / (s.min_sqft : ℚ)) (3/2) :=
        le_min h1 (by norm_num)
      have hrew : 50 + 50 * (min ((v : ℚ) / (s.min_sqft : ℚ)) (3/2) - 1) / (1/2)
          = 50 + 100 * (min ((v : ℚ) / (s.min_sqft : ℚ)) (3/2) - 1) := by ring
      rw [hrew] at hqv
      rw [← hqv]
      constructor <;> nlinarith

/-- A bonus term is nonnegative. -/
theorem ite_bonus_nonneg (c : Prop) [Decidable c] (x : ℚ) (hx : 0 ≤ x) :
    0 ≤ if c then x else 0 := by
  split
  · exact hx
  · exact le_refl 0

/-- The amenities sub-score always lies between 0 and 100. -/
theorem score_amenities_bounds (s : ScoringService) (apt : Apartment) :
    0 ≤ s.score_amenities apt ∧ s.score_amenities apt ≤ 100 := by
  unfold ScoringService.score_amenities
  refine ⟨le_min ?_ (by norm_num), min_le_right _ _⟩
  repeat' apply add_nonneg
  · norm_num
  all_goals exact ite_bonus_nonneg _ _ (by norm_num)

/-- The location sub-score always lies between 0 and 100. -/
theorem score_location_bounds (s : ScoringService) (apt : Apartment) :
    0 ≤ s.score_location apt ∧ s.score_location apt ≤ 100 := by
  unfold ScoringService.score_location
  split
  · norm_num
  · exact ⟨le_max_left 0 _, max_le (by norm_num) (min_le_left _ _)⟩

/-- The freshness sub-score always lies between 0 and 100. -/
theorem score_freshness_bounds (now : ℚ) (posted_date : Option ℚ) :
    0 ≤ ScoringService.score_freshness now posted_date ∧
      ScoringService.score_freshness now posted_date ≤ 100 := by
  unfold ScoringService.score_freshness
  rcases posted_date with _ | p
  · norm_num
  · dsimp only
    repeat' split
    all_goals norm_num

/-- The computable floor on rationals agrees with the floor of the ordered
field structure. -/
theorem ratFloor_eq_intFloor (x : ℚ) : x.floor = ⌊x⌋ :=
  (Rat.floor_def' x).trans Rat.floor_def.symm

/-- Banker rounding keeps a value inside an integer-bounded interval. -/
theorem roundHalfEven_bounds (x : ℚ) (n : ℤ) (h0 : 0 ≤ x) (h1 : x ≤ (n : ℚ)) :
    0 ≤ roundHalfEven x ∧ roundHalfEven x ≤ n := by
  unfold roundHalfEven
  rw [ratFloor_eq_intFloor]
  have hf0 : 0 ≤ ⌊x⌋ := Int.le_floor.mpr (by exact_mod_cast h0)
  have hfn : ⌊x⌋ ≤ n := by
    have hmono := Int.floor_mono h1
    rwa [Int.floor_intCast] at hmono
  by_cases hc1 : x - ⌊x⌋ < 1/2
  · rw [if_pos hc1]; exact ⟨hf0, hfn⟩
  · rw [if_neg hc1]
    have hlt : ⌊x⌋ < n := by
      rcases lt_or_eq_of_le hfn with hl | he
      · exact hl
      · exfalso
        apply hc1
        have hxn : x - (⌊x⌋ : ℚ) ≤ 0 := by
          rw [he]
          have : x ≤ ((n : ℤ) : ℚ) := by exact_mod_cast h1
          linarith
        linarith
    by_cases hc2 : 1/2 < x - ⌊x⌋
    · rw [if_pos hc2]; exact ⟨by omega, by omega⟩
    · rw [if_neg hc2]
      by_cases hc3 : 2 ∣ ⌊x⌋
      · rw [if_pos hc3]; exact ⟨hf0, hfn⟩
      · rw [if_neg hc3]; exact ⟨by omega, by omega⟩

/-- Rounding to one decimal keeps a value inside 0 to 100. -/
theorem round1_bounds (x : ℚ) (h0 : 0 ≤ x) (h1 : x ≤ 100) :
    0 ≤ round1 x ∧ round1 x ≤ 100 := by
  have h := roundHalfEven_bounds (x * 10) 1000 (by linarith) (by push_cast; linarith)
  unfold round1
  constructor
  · apply div_nonneg _ (by norm_num : (0:ℚ) ≤ 10)
    exact_mod_cast h.1
  · rw [div_le_iff (by norm_num : (0:ℚ) < 10)]
    have : ((roundHalfEven (x * 10) : ℤ) : ℚ) ≤ ((1000 : ℤ) : ℚ) := by
      exact_mod_cast h.2
    push_cast at this ⊢
    linarith

/-- With nonnegative weights summing to at most 1 and positive min_sqft,
a successful calculate_score gives a total and five sub-scores in 0 to 100. -/
theorem calculate_score_bounds (s : ScoringService) (now : ℚ) (apt : Apartment)
    (hm : 0 < s.min_sqft)
    (hw : 0 ≤ s.weights.price ∧ 0 ≤ s.weights.size ∧ 0 ≤ s.weights.amenities ∧
      0 ≤ s.weights.location ∧ 0 ≤ s.weights.freshness)
    (hsum : s.weights.total ≤ 1)
    (sc : ℚ) (b : ScoreBreakdown)
    (h : s.calculate_score now apt = .ok (sc, b)) :
    (0 ≤ sc ∧ sc ≤ 100) ∧
    (0 ≤ b.price ∧ b.price ≤ 100) ∧ (0 ≤ b.size ∧ b.size ≤ 100) ∧
    (0 ≤ b.amenities ∧ b.amenities ≤ 100) ∧ (0 ≤ b.location ∧ b.location ≤ 100) ∧
    (0 ≤ b.freshness ∧ b.freshness ≤ 100) := by
  unfold ScoringService.calculate_score at h
  rcases hp : apt.price_usd with _ | p <;> rw [hp] at h
  · exact absurd h (by simp)
  · rcases hq : s.score_size apt.sqft with e | q <;> rw [hq] at h
    · dsimp only at h
      exact Except.noConfusion h
    · dsimp only at h
      rw [Except.ok.injEq, Prod.mk.injEq] at h
      obtain ⟨hsc, hb⟩ := h
      have hbp := score_price_bounds s p
      have hbs := score_size_bounds s hm apt.sqft q hq
      have hba := score_amenities_bounds s apt
      have hbl := score_location_bounds s apt
      have hbf := score_freshness_bounds now apt.posted_date
      obtain ⟨hw1, hw2, hw3, hw4, hw5⟩ := hw
      unfold ScoringWeights.total at hsum
      have ht0 : 0 ≤ s.score_price p * s.weights.price + q * s.weights.size
          + s.score_amenities apt * s.weights.amenities
          + s.score_location apt * s.weights.location
          + ScoringService.score_freshness now apt.posted_date * s.weights.freshness := by
        have := mul_nonneg hbp.1 hw1
        have := mul_nonneg hbs.1 hw2
        have := mul_nonneg hba.1 hw3
        have := mul_nonneg hbl.1 hw4
        have := mul_nonneg hbf.1 hw5
        linarith
      have ht1 : s.score_price p * s.weights.price + q * s.weights.size
          + s.score_amenities apt * s.weights.amenities
          + s.score_location apt * s.weights.location
          + ScoringService.score_freshness now apt.posted_date * s.weights.freshness
          ≤ 100 := by
        have m1 := mul_le_mul_of_nonneg_right hbp.2 hw1
        have m2 := mul_le_mul_of_nonneg_right hbs.2 hw2
        have m3 := mul_le_mul_of_nonneg_right hba.2 hw3
        have m4 := mul_le_mul_of_nonneg_right hbl.2 hw4
        have m5 := mul_le_mul_of_nonneg_right hbf.2 hw5
        nlinarith
      refine ⟨?_, ?_, ?_, ?_, ?_, ?_⟩
      · rw [← hsc]
        exact round1_bounds _ ht0 ht1
      all_goals rw [← hb]
      · exact hbp
      · exact hbs
      · exact hba
      · exact hbl
      · exact hbf

set_option maxRecDepth 8000 in
/-- C9 counterexample: the weight vector (2, -1, 0, 0, 0) sums to 1.0 and so
passes validation, yet an apartment priced at the budget minimum receives the
total score 150, outside the 0 to 100 range promised for the score. -/
theorem score_out_of_bounds_counterexample :
    sBad.weights.validate = .ok () ∧
    sBad.score_apartments 0 [aptCheap] = .ok [aptCheapScored] ∧
    aptCheapScored.score = some 150 ∧ ¬ ((150 : ℚ) ≤ 100) := by
  with_unfolding_all decide

/-- C9 as amended: when the validated weights are additionally nonnegative and
sum to at most 1, and min_sqft is positive, every returned apartment carries a
score in 0 to 100 and a breakdown whose five values all lie in 0 to 100;
the breakdown bounds hold for every successful run regardless of the weights. -/
theorem score_apartments_bounds (s : ScoringService) (now : ℚ)
    (apts out : List Apartment)
    (hval : s.weights.validate = .ok ())
    (hw : 0 ≤ s.weights.price ∧ 0 ≤ s.weights.size ∧ 0 ≤ s.weights.amenities ∧
      0 ≤ s.weights.location ∧ 0 ≤ s.weights.freshness)
    (hsum : s.weights.total ≤ 1)
    (hm : 0 < s.min_sqft)
    (hok : s.score_apartments now apts = .ok out) :
    ∀ a ∈ out, (∃ sc, a.score = some sc ∧ 0 ≤ sc ∧ sc ≤ 100) ∧
      (∃ b, a.score_breakdown = some b ∧
        0 ≤ b.price ∧ b.price ≤ 100 ∧ 0 ≤ b.size ∧ b.size ≤ 100 ∧
        0 ≤ b.amenities ∧ b.amenities ≤ 100 ∧ 0 ≤ b.location ∧ b.location ≤ 100 ∧
        0 ≤ b.freshness ∧ b.freshness ≤ 100) := by
  intro a ha
  unfold ScoringService.score_apartments at hok
  rw [scoreLoop_eq s now hm.ne' apts] at hok
  dsimp only at hok
  rw [Except.ok.injEq] at hok
  rw [← hok] at ha
  have ha2 : a ∈ (apts.filter (fun a => s.passes_filter a)).map (s.withScore now) :=
    (List.perm_insertionSort _ _).mem_iff.mp ha
  obtain ⟨a0, ha0, rfl⟩ := List.mem_map.mp ha2
  have hpass := (List.mem_filter.mp ha0).2
  obtain ⟨hmust, p, hp, _, _⟩ := (passes_filter_iff s a0).mp hpass
  obtain ⟨sc, b, hcalc⟩ := calculate_score_ok s now a0 hm.ne' p hp
  have hbounds := calculate_score_bounds s now a0 hm hw hsum sc b hcalc
  rw [withScore_eq s now a0 sc b hcalc]
  refine ⟨⟨sc, rfl, hbounds.1⟩, ⟨b, rfl, ?_⟩⟩
  obtain ⟨_, h2, h3, h4, h5, h6⟩ := hbounds
  exact ⟨h2.1, h2.2, h3.1, h3.2, h4.1, h4.2, h5.1, h5.2, h6.1, h6.2⟩

set_option maxRecDepth 8000 in
/-- Witness for amended C9: the default service scores the sample apartment
55.5, inside the bounds. -/
theorem score_apartments_bounds_witness :
    (∃ sc, aptSampleScored.score = some sc ∧ 0 ≤ sc ∧ sc ≤ 100) ∧
    (∃ b, aptSampleScored.score_breakdown = some b ∧
      0 ≤ b.price ∧ b.price ≤ 100 ∧ 0 ≤ b.size ∧ b.size ≤ 100 ∧
      0 ≤ b.amenities ∧ b.amenities ≤ 100 ∧ 0 ≤ b.location ∧ b.location ≤ 100 ∧
      0 ≤ b.freshness ∧ b.freshness ≤ 100) :=
  score_apartments_bounds sSample 0 [aptSample] [aptSampleScored]
    (by with_unfolding_all decide) (by with_unfolding_all decide)
    (by with_unfolding_all decide) (by with_unfolding_all decide)
    (by with_unfolding_all decide)
    aptSampleScored (List.mem_singleton_self aptSampleScored)

/-- C10: with positive min_sqft, score_apartments raises no exception on any
input list; the precondition is necessary, since the service with min_sqft 0
raises ZeroDivisionError on an in-budget apartment with a known sqft. -/
theorem score_apartments_total_of_min_sqft (s : ScoringService) (now : ℚ)
    (apts : List Apartment) (h : 0 < s.min_sqft) :
    (∃ out, s.score_apartments now apts = .ok out) ∧
    sZeroSqft.min_sqft = 0 ∧
    sZeroSqft.score_apartments 0 [aptSized] =
      .error ⟨"ZeroDivisionError", "division by zero"⟩ := by
  refine ⟨⟨List.insertionSort (fun a b => (b.score.getD 0) ≤ (a.score.getD 0))
      ((apts.filter (fun a => s.passes_filter a)).map (s.withScore now)), ?_⟩,
    by with_unfolding_all decide, by with_unfolding_all decide⟩
  unfold ScoringService.score_apartments
  rw [scoreLoop_eq s now h.ne' apts]

set_option maxRecDepth 8000 in
/-- Witness for C10 on the sample service. -/
theorem score_apartments_total_witness :
    (∃ out, sSample.score_apartments 0 [aptSample] = .ok out) ∧
    sZeroSqft.min_sqft = 0 ∧
    sZeroSqft.score_apartments 0 [aptSized] =
      .error ⟨"ZeroDivisionError", "division by zero"⟩ :=
  score_apartments_total_of_min_sqft sSample 0 [aptSample] (by with_unfolding_all decide)

end ApartmentFinder
